import Mathlib

/-!
Shallow embedding of the MOT data-alignment pipeline of
`trackeval/mot_utils.py` (functions `_load_raw_file`,
`_combine_gt_and_tracker`, `_preprocess_data`, `_calculate_box_ious`),
together with proofs of the behavioural properties of its specification.

Numeric values carried by detection records are modelled as exact
rationals; the machine epsilon `np.finfo(float).eps` used by the source
is the exact rational `2 ^ (-52)`.  A raw input file, after the loader's
numeric coercion, is a list of rows, each row a list of rationals.
Fallible steps of the source (array accesses that can raise) are
modelled by an `Option`-valued pipeline.
-/

/-- Rows of a loaded MOT file: the numeric fields of one detection line. -/
abbrev Row := List ℚ

/-- Truncation toward zero, the semantics of python `int()` and numpy
`astype(int)` on a (rational-valued) number. -/
def truncInt (q : ℚ) : ℤ := q.num.tdiv q.den

/-- Frame number of a row: `int(row[0])`, as used by `_load_raw_file`
line 23 to build the frame index. -/
def rowFrame (r : Row) : ℤ := truncInt (r.getD 0 0)

/-- The bucket of rows of a loaded file carrying frame number `k`.
`_load_raw_file` groups rows into a dict keyed by frame number,
preserving file order within a frame; the dict holds key `k` exactly
when `bucket rows k` is nonempty, and maps it to `bucket rows k`. -/
def bucket (rows : List Row) (k : ℤ) : List Row :=
  rows.filter (fun r => rowFrame r == k)

/-- Column count of a frame bucket, the `shape[1]` of the numpy array
`np.array(bucket)` built by `_preprocess_data` (buckets are required to
be rectangular for that conversion to succeed). -/
def rowWidth (rows : List Row) : ℕ := (rows.headD []).length

/-- All rows of a bucket share one length, the condition for
`np.array(bucket, dtype=float64)` to produce a 2-d array. -/
def rectangular (rows : List Row) : Bool :=
  rows.all (fun r => r.length == rowWidth rows)

/-- Object id of a row: column 1 cast with `astype(int)`
(`_preprocess_data` lines 80 and 97). -/
def idOf (r : Row) : ℤ := truncInt (r.getD 1 0)

/-- An `x, y, width, height` bounding box. -/
structure Box where
  x : ℚ
  y : ℚ
  w : ℚ
  h : ℚ
deriving DecidableEq

/-- Bounding box of a row: columns `2:6` (`_preprocess_data` lines 79
and 96). -/
def boxOf (r : Row) : Box :=
  ⟨r.getD 2 0, r.getD 3 0, r.getD 4 0, r.getD 5 0⟩

/-- Validity flag of a ground-truth row: column 6 cast with
`astype(int)` (`_preprocess_data` line 82). -/
def flagOf (r : Row) : ℤ := truncInt (r.getD 6 0)

/-- The double-precision machine epsilon `np.finfo(float).eps`. -/
def eps : ℚ := 1 / 2 ^ 52

/-- Area of a box as computed by `_calculate_box_ious` lines 172-173
after corner conversion: `(x1 - x0) * (y1 - y0) = w * h`. -/
def area (b : Box) : ℚ := b.w * b.h

/-- Intersection width of a pair of boxes (`_calculate_box_ious`
line 167), clipped at 0, after the corner conversion of lines 156-159. -/
def interW (g c : Box) : ℚ :=
  max (min (g.x + g.w) (c.x + c.w) - max g.x c.x) 0

/-- Intersection height of a pair of boxes (`_calculate_box_ious`
line 168). -/
def interH (g c : Box) : ℚ :=
  max (min (g.y + g.h) (c.y + c.h) - max g.y c.y) 0

/-- Raw intersection area `ia = iw * ih` (`_calculate_box_ious`
line 169). -/
def interArea (g c : Box) : ℚ := interW g c * interH g c

/-- Raw union area `area1 + area2 - ia` (`_calculate_box_ious`
line 176). -/
def unionArea (g c : Box) : ℚ := area g + area c - interArea g c

/-- Intersection after the degenerate-case fix-ups of
`_calculate_box_ious` lines 179-182: entries whose reference area,
candidate area or union is below epsilon are zeroed. -/
def interFixed (g c : Box) : ℚ :=
  if area g ≤ eps ∨ area c ≤ eps ∨ unionArea g c ≤ eps then 0
  else interArea g c

/-- Union after the fix-up of `_calculate_box_ious` line 183: a union
below epsilon is replaced by 1 before dividing. -/
def unionFixed (g c : Box) : ℚ :=
  if unionArea g c ≤ eps then 1 else unionArea g c

/-- One entry of the IoU matrix: `intersection / union` after both
fix-ups (`_calculate_box_ious` line 185). -/
def iouPair (g c : Box) : ℚ := interFixed g c / unionFixed g c

/-- The pairwise IoU matrix of `_calculate_box_ious` (called with the
default `xywh` format), entry `(i, j)` comparing reference box `i`
against candidate box `j`. -/
def calculate_box_ious (gts cs : List Box) : List (List ℚ) :=
  gts.map (fun g => cs.map (fun c => iouPair g c))

/-- Boolean-mask row selection, the semantics of numpy advanced
indexing `a[mask]` for a mask of the same number of rows. -/
def maskFilter {α : Type} : List Bool → List α → List α
  | b :: bs, x :: xs =>
      if b then x :: maskFilter bs xs else maskFilter bs xs
  | _, _ => []

/-- Zero matrix `np.zeros((n, m))` as a list of rows. -/
def zerosMat (n m : ℕ) : List (List ℚ) :=
  List.replicate n (List.replicate m (0 : ℚ))

/-- The `gt_zero_marked` array of `_preprocess_data` lines 81-88: the
validity flags of a ground-truth bucket when it carries at least 7
columns, otherwise all ones.  An empty bucket yields the empty array. -/
def zeroMarkedOf (gtRows : List Row) : List ℤ :=
  if 7 ≤ rowWidth gtRows then gtRows.map flagOf
  else List.replicate gtRows.length 1

/-- The keep mask `np.not_equal(gt_zero_marked, 0)` of
`_preprocess_data` line 119. -/
def keepMaskOf (gtRows : List Row) : List Bool :=
  (zeroMarkedOf gtRows).map (fun z => z != 0)

/-- Row-level form of the keep mask: a ground-truth row survives the
zero-marked filter when its bucket has no validity column, or when its
flag is nonzero. -/
def keepPred (gtRows : List Row) (r : Row) : Bool :=
  if 7 ≤ rowWidth gtRows then flagOf r != 0 else true

/-- The similarity matrix as first computed for a timestep
(`_preprocess_data` lines 104-116): the full pairwise IoU matrix when
both sides are nonempty, otherwise a zero matrix of the two counts. -/
def matchSim (gtRows trRows : List Row) : List (List ℚ) :=
  if 0 < gtRows.length ∧ 0 < trRows.length then
    calculate_box_ious (gtRows.map boxOf) (trRows.map boxOf)
  else zerosMat gtRows.length trRows.length

/-- Per-timestep slice of the preprocessed output. -/
structure StepData where
  gtIds : List ℤ
  gtDets : List Box
  trackerIds : List ℤ
  trackerDets : List Box
  sim : List (List ℚ)
deriving DecidableEq

/-- Body of the per-timestep loop of `_preprocess_data` (lines 69-123)
on the two frame buckets: extract ids and boxes, compute the similarity
matrix, and remove the zero-marked ground-truth rows (applying the same
mask to the similarity matrix when it has rows).  Tracker arrays are
not filtered. -/
def stepCore (gtRows trRows : List Row) : StepData :=
  let keep := keepMaskOf gtRows
  let sim := matchSim gtRows trRows
  { gtIds := maskFilter keep (gtRows.map idOf)
    gtDets := maskFilter keep (gtRows.map boxOf)
    trackerIds := trRows.map idOf
    trackerDets := trRows.map boxOf
    sim := if 0 < sim.length then maskFilter keep sim else sim }

/-- Domain of the per-timestep loop body: nonempty buckets must be
rectangular (for the `np.array` conversion) and wide enough for the
column reads.  Ground-truth buckets need the 6 box-and-id columns
(narrower ones would make the column slice `2:6` under-wide); tracker
buckets additionally need column 6, which line 98 of
`_preprocess_data` reads unconditionally as the confidence array. -/
def stepOkCore (gtRows trRows : List Row) : Bool :=
  (gtRows.isEmpty || (rectangular gtRows && decide (6 ≤ rowWidth gtRows))) &&
  (trRows.isEmpty || (rectangular trRows && decide (7 ≤ rowWidth trRows)))

/-- Maximum frame key of a loaded file with initial value 0, the
accumulation of `_combine_gt_and_tracker` lines 34-40 (folding over the
rows of a file visits the same values as folding over the keys of its
frame index, and the `int(k)` there is the identity on the integer
keys). -/
def maxKey (rows : List Row) : ℤ :=
  rows.foldl (fun m r => max m (rowFrame r)) 0

/-- Return value of `_combine_gt_and_tracker`: the larger of the two
per-file maximum frame keys. -/
def combine_gt_and_tracker (gt tr : List Row) : ℤ :=
  max (maxKey gt) (maxKey tr)

/-- The number of timesteps as a natural number (the source value is
never negative, both fold accumulators starting at 0). -/
def numTimesteps (gt tr : List Row) : ℕ :=
  (combine_gt_and_tracker gt tr).toNat

/-- The per-timestep loop body at 0-based timestep `t`, reading file
frame `t + 1` from both sources (`_preprocess_data` line 70). -/
def stepAt (gt tr : List Row) (t : ℕ) : StepData :=
  stepCore (bucket gt ((t : ℤ) + 1)) (bucket tr ((t : ℤ) + 1))

/-- Domain check of the loop body at timestep `t`. -/
def stepOkAt (gt tr : List Row) (t : ℕ) : Bool :=
  stepOkCore (bucket gt ((t : ℤ) + 1)) (bucket tr ((t : ℤ) + 1))

/-- The aligned structure returned by `_preprocess_data`. -/
structure PreprocessedData where
  gtIds : List (List ℤ)
  trackerIds : List (List ℤ)
  gtDets : List (List Box)
  trackerDets : List (List Box)
  similarityScores : List (List (List ℚ))
  numTimesteps : ℕ
  numGtDets : ℕ
  numTrackerDets : ℕ
  numGtIds : ℤ
  numTrackerIds : ℤ
deriving DecidableEq

/-- One step of the id-counter accumulation of `_preprocess_data`
lines 134-137: `max(current, np.max(ids) + 1)` when the frame has ids,
else the current value. -/
def maxIdFold (m : ℤ) : List ℤ → ℤ
  | [] => m
  | x :: xs => max m (xs.foldl max x + 1)

/-- The list of per-timestep slices for timesteps `0 .. T-1`. -/
def stepsOf (gt tr : List Row) : List StepData :=
  (List.range (numTimesteps gt tr)).map (stepAt gt tr)

/-- The preprocessed structure assembled by `_preprocess_data`:
per-timestep arrays from the main loop, then the four aggregate
counters accumulated over the (post-filter) per-timestep arrays
(lines 125-137). -/
def preprocess_data (gt tr : List Row) : PreprocessedData :=
  let ss := stepsOf gt tr
  { gtIds := ss.map StepData.gtIds
    trackerIds := ss.map StepData.trackerIds
    gtDets := ss.map StepData.gtDets
    trackerDets := ss.map StepData.trackerDets
    similarityScores := ss.map StepData.sim
    numTimesteps := numTimesteps gt tr
    numGtDets := ss.foldl (fun n s => n + s.gtIds.length) 0
    numTrackerDets := ss.foldl (fun n s => n + s.trackerIds.length) 0
    numGtIds := ss.foldl (fun m s => maxIdFold m s.gtIds) 0
    numTrackerIds := ss.foldl (fun m s => maxIdFold m s.trackerIds) 0 }

/-- The whole pipeline on two loaded files: `none` when some timestep's
buckets fall outside the loop body's domain (where the source raises),
otherwise the assembled structure. -/
def preprocess? (gt tr : List Row) : Option PreprocessedData :=
  if (List.range (numTimesteps gt tr)).all (stepOkAt gt tr) then
    some (preprocess_data gt tr)
  else none

/-- Entrywise negation `-ious`, the cost matrix handed to the
assignment solver (`_preprocess_data` line 107). -/
def negMat (m : List (List ℚ)) : List (List ℚ) :=
  m.map (fun row => row.map Neg.neg)

/-- Matrix entry access `ious[i, j]` for the gathered read of
`_preprocess_data` line 108. -/
def matEntry (m : List (List ℚ)) (i j : ℕ) : ℚ :=
  (m.getD i []).getD j 0

/-- The accepted match set of `_preprocess_data` lines 107-110: the
pairs returned by the assignment solver on the negated IoU matrix, kept
when their IoU strictly exceeds `0.5 - eps`.  The solver
(`scipy.optimize.linear_sum_assignment`) is an external collaborator,
modelled as a function parameter. -/
def acceptedMatches (lsa : List (List ℚ) → List (ℕ × ℕ))
    (ious : List (List ℚ)) : List (ℕ × ℕ) :=
  (lsa (negMat ious)).filter
    (fun p => decide (1 / 2 - eps < matEntry ious p.1 p.2))

/-- The per-timestep loop body with the optimal-assignment computation
of `_preprocess_data` lines 107-110 included: the accepted match set is
computed (from the solver `lsa`) and bound, exactly as in the source,
which never reads it again. -/
def stepCoreWith (lsa : List (List ℚ) → List (ℕ × ℕ))
    (gtRows trRows : List Row) : StepData :=
  let keep := keepMaskOf gtRows
  let sim :=
    if 0 < gtRows.length ∧ 0 < trRows.length then
      let ious := calculate_box_ious (gtRows.map boxOf) (trRows.map boxOf)
      let _matches := acceptedMatches lsa ious
      ious
    else zerosMat gtRows.length trRows.length
  { gtIds := maskFilter keep (gtRows.map idOf)
    gtDets := maskFilter keep (gtRows.map boxOf)
    trackerIds := trRows.map idOf
    trackerDets := trRows.map boxOf
    sim := if 0 < sim.length then maskFilter keep sim else sim }

/-- `stepAt` with the assignment computation included. -/
def stepAtWith (lsa : List (List ℚ) → List (ℕ × ℕ))
    (gt tr : List Row) (t : ℕ) : StepData :=
  stepCoreWith lsa (bucket gt ((t : ℤ) + 1)) (bucket tr ((t : ℤ) + 1))

/-- `preprocess_data` with the assignment computation included. -/
def preprocess_data_with (lsa : List (List ℚ) → List (ℕ × ℕ))
    (gt tr : List Row) : PreprocessedData :=
  let ss := (List.range (numTimesteps gt tr)).map (stepAtWith lsa gt tr)
  { gtIds := ss.map StepData.gtIds
    trackerIds := ss.map StepData.trackerIds
    gtDets := ss.map StepData.gtDets
    trackerDets := ss.map StepData.trackerDets
    similarityScores := ss.map StepData.sim
    numTimesteps := numTimesteps gt tr
    numGtDets := ss.foldl (fun n s => n + s.gtIds.length) 0
    numTrackerDets := ss.foldl (fun n s => n + s.trackerIds.length) 0
    numGtIds := ss.foldl (fun m s => maxIdFold m s.gtIds) 0
    numTrackerIds := ss.foldl (fun m s => maxIdFold m s.trackerIds) 0 }

/-- The whole pipeline with the assignment computation included. -/
def preprocessWith? (lsa : List (List ℚ) → List (ℕ × ℕ))
    (gt tr : List Row) : Option PreprocessedData :=
  if (List.range (numTimesteps gt tr)).all (stepOkAt gt tr) then
    some (preprocess_data_with lsa gt tr)
  else none

/-- A one-frame ground-truth file: frame 1, id 0, box `0,0,10,10`,
validity flag 1. -/
def gtEx1 : List Row := [[1, 0, 0, 0, 10, 10, 1]]

/-- A one-frame tracker file: frame 1, id 5, the same box, confidence
`9/10`. -/
def trEx1 : List Row := [[1, 5, 0, 0, 10, 10, 9/10]]

/-- A two-row ground-truth file for frame 1; the second row carries
validity flag 0 and overlaps nothing. -/
def gtEx2 : List Row := [[1, 0, 0, 0, 10, 10, 1], [1, 3, 20, 20, 5, 5, 0]]

/-- A tracker file whose rows carry only the 6 minimum fields
`frame, id, x, y, w, h` and no confidence column. -/
def trEx6 : List Row := [[1, 5, 0, 0, 10, 10]]

/-- A two-frame tracker file whose frame 2 has no ground truth. -/
def trEx2 : List Row := [[1, 5, 0, 0, 10, 10, 1], [2, 7, 3, 3, 4, 4, 1]]

/-- The preprocessed structure of the example pair `gtEx1`, `trEx1`. -/
def dEx1 : PreprocessedData := preprocess_data gtEx1 trEx1

/-- The preprocessed structure of the example pair `gtEx2`, `trEx1`. -/
def dEx2 : PreprocessedData := preprocess_data gtEx2 trEx1

/-- The preprocessed structure of the example pair `gtEx1`, `trEx2`. -/
def dEx3 : PreprocessedData := preprocess_data gtEx1 trEx2

/-- A box with positive width and height whose area, `2 ^ (-54)`, is
positive but below the machine epsilon `2 ^ (-52)`. -/
def tinyBox : Box := ⟨0, 0, 1 / 2 ^ 27, 1 / 2 ^ 27⟩

theorem maskFilter_map_map {α : Type} (p : Row → Bool) (f : Row → α) :
    ∀ l : List Row, maskFilter (l.map p) (l.map f) = (l.filter p).map f := by
  intro l
  induction l with
  | nil => rfl
  | cons r rs ih =>
      simp only [List.map_cons, maskFilter, List.filter_cons]
      by_cases h : p r = true
      · simp [h, ih]
      · simp at h
        simp [h, ih]

theorem maskFilter_replicate_true {α : Type} :
    ∀ l : List α, maskFilter (List.replicate l.length true) l = l := by
  intro l
  induction l with
  | nil => rfl
  | cons x xs ih => simp [List.replicate, maskFilter, ih]

theorem mem_maskFilter {α : Type} {x : α} :
    ∀ {m : List Bool} {l : List α}, x ∈ maskFilter m l → x ∈ l := by
  intro m
  induction m with
  | nil => intro l h; simp [maskFilter] at h
  | cons b bs ih =>
      intro l h
      cases l with
      | nil => simp [maskFilter] at h
      | cons y ys =>
          simp only [maskFilter] at h
          by_cases hb : b = true
          · rw [if_pos hb] at h
            rcases List.mem_cons.mp h with h1 | h2
            · exact h1 ▸ List.mem_cons_self y ys
            · exact List.mem_cons_of_mem y (ih h2)
          · simp at hb
            rw [hb] at h
            simp at h
            exact List.mem_cons_of_mem y (ih h)

theorem maskFilter_keep {α : Type} (gtRows : List Row) (f : Row → α) :
    maskFilter (keepMaskOf gtRows) (gtRows.map f) =
      (gtRows.filter (keepPred gtRows)).map f := by
  unfold keepMaskOf zeroMarkedOf keepPred
  by_cases h : 7 ≤ rowWidth gtRows
  · rw [if_pos h]
    rw [List.map_map]
    have : ∀ l : List Row, List.filter (fun r => if 7 ≤ rowWidth gtRows then flagOf r != 0 else true) l = List.filter (fun r => flagOf r != 0) l := by
      intro l
      apply List.filter_congr
      intro x _
      rw [if_pos h]
    rw [this]
    exact maskFilter_map_map (fun r => flagOf r != 0) f gtRows
  · rw [if_neg h]
    have hm : List.map (fun z : ℤ => z != 0) (List.replicate gtRows.length 1) = List.replicate gtRows.length true := by
      rw [List.map_replicate]
      rfl
    rw [hm]
    have hl : gtRows.length = (gtRows.map f).length := (List.length_map _ _).symm
    rw [hl, maskFilter_replicate_true]
    have : List.filter (fun r => if 7 ≤ rowWidth gtRows then flagOf r != 0 else true) gtRows = List.filter (fun _ => true) gtRows := by
      apply List.filter_congr
      intro x _
      rw [if_neg h]
    rw [this, List.filter_true]

theorem matchSim_eq_map (g r : List Row) :
    matchSim g r =
      g.map (fun gr =>
        if 0 < g.length ∧ 0 < r.length then
          r.map (fun cr => iouPair (boxOf gr) (boxOf cr))
        else List.replicate r.length 0) := by
  unfold matchSim
  by_cases h : 0 < g.length ∧ 0 < r.length
  · rw [if_pos h]
    unfold calculate_box_ious
    rw [List.map_map]
    apply List.map_congr_left
    intro gr _
    rw [if_pos h]
    simp [Function.comp, List.map_map]
  · rw [if_neg h]
    unfold zerosMat
    have : (fun gr : Row =>
        if 0 < g.length ∧ 0 < r.length then
          r.map (fun cr => iouPair (boxOf gr) (boxOf cr))
        else List.replicate r.length 0) =
        Function.const Row (List.replicate r.length (0 : ℚ)) := by
      funext gr
      rw [if_neg h]
      rfl
    rw [this, List.map_const]

theorem stepCore_gtIds (g r : List Row) :
    (stepCore g r).gtIds = (g.filter (keepPred g)).map idOf :=
  maskFilter_keep g idOf

theorem stepCore_gtDets (g r : List Row) :
    (stepCore g r).gtDets = (g.filter (keepPred g)).map boxOf :=
  maskFilter_keep g boxOf

theorem stepCore_trackerIds (g r : List Row) :
    (stepCore g r).trackerIds = r.map idOf := rfl

theorem stepCore_trackerDets (g r : List Row) :
    (stepCore g r).trackerDets = r.map boxOf := rfl

theorem matchSim_length (g r : List Row) :
    (matchSim g r).length = g.length := by
  rw [matchSim_eq_map]
  exact List.length_map _ _

theorem stepCore_sim (g r : List Row) :
    (stepCore g r).sim =
      (g.filter (keepPred g)).map (fun gr =>
        if 0 < g.length ∧ 0 < r.length then
          r.map (fun cr => iouPair (boxOf gr) (boxOf cr))
        else List.replicate r.length 0) := by
  show (if 0 < (matchSim g r).length then
      maskFilter (keepMaskOf g) (matchSim g r) else matchSim g r) = _
  rw [matchSim_length]
  by_cases h : 0 < g.length
  · rw [if_pos h, matchSim_eq_map]
    exact maskFilter_keep g _
  · rw [if_neg h]
    have hg : g = [] := List.length_eq_zero.mp (Nat.eq_zero_of_not_pos h)
    subst hg
    rfl

theorem stepCore_sim_masked (g r : List Row) (h : 0 < (matchSim g r).length) :
    (stepCore g r).sim = maskFilter (keepMaskOf g) (matchSim g r) := by
  show (if 0 < (matchSim g r).length then
      maskFilter (keepMaskOf g) (matchSim g r) else matchSim g r) = _
  rw [if_pos h]

theorem preprocess_eq_of_some {gt tr : List Row} {d : PreprocessedData}
    (h : preprocess? gt tr = some d) : d = preprocess_data gt tr := by
  unfold preprocess? at h
  by_cases hc : (List.range (numTimesteps gt tr)).all (stepOkAt gt tr) = true
  · rw [if_pos hc] at h
    exact (Option.some_inj.mp h).symm
  · rw [if_neg hc] at h
    exact absurd h (Option.noConfusion)

theorem getD_map_range {α : Type} (f : ℕ → α) (T t : ℕ) (d : α) :
    ((List.range T).map f).getD t d = if t < T then f t else d := by
  rw [List.getD_eq_getElem?_getD, List.getElem?_map]
  by_cases h : t < T
  · rw [List.getElem?_range h, if_pos h]
    rfl
  · rw [if_neg h]
    rw [List.getElem?_eq_none (by simpa [List.length_range] using Nat.le_of_not_lt h)]
    rfl

theorem stepsOf_field_getD {α : Type} (f : StepData → α) (gt tr : List Row)
    (t : ℕ) (d : α) :
    ((stepsOf gt tr).map f).getD t d =
      if t < numTimesteps gt tr then f (stepAt gt tr t) else d := by
  unfold stepsOf
  rw [List.map_map]
  exact getD_map_range (fun t => f (stepAt gt tr t)) (numTimesteps gt tr) t d

theorem preprocess_gtIds_getD (gt tr : List Row) (t : ℕ) :
    (preprocess_data gt tr).gtIds.getD t [] =
      if t < numTimesteps gt tr then (stepAt gt tr t).gtIds else [] :=
  stepsOf_field_getD StepData.gtIds gt tr t []

theorem preprocess_gtDets_getD (gt tr : List Row) (t : ℕ) :
    (preprocess_data gt tr).gtDets.getD t [] =
      if t < numTimesteps gt tr then (stepAt gt tr t).gtDets else [] :=
  stepsOf_field_getD StepData.gtDets gt tr t []

theorem preprocess_trackerIds_getD (gt tr : List Row) (t : ℕ) :
    (preprocess_data gt tr).trackerIds.getD t [] =
      if t < numTimesteps gt tr then (stepAt gt tr t).trackerIds else [] :=
  stepsOf_field_getD StepData.trackerIds gt tr t []

theorem preprocess_trackerDets_getD (gt tr : List Row) (t : ℕ) :
    (preprocess_data gt tr).trackerDets.getD t [] =
      if t < numTimesteps gt tr then (stepAt gt tr t).trackerDets else [] :=
  stepsOf_field_getD StepData.trackerDets gt tr t []

theorem preprocess_sim_getD (gt tr : List Row) (t : ℕ) :
    (preprocess_data gt tr).similarityScores.getD t [] =
      if t < numTimesteps gt tr then (stepAt gt tr t).sim else [] :=
  stepsOf_field_getD StepData.sim gt tr t []

theorem le_foldl_max : ∀ (l : List ℤ) (a : ℤ), a ≤ l.foldl max a := by
  intro l
  induction l with
  | nil => intro a; exact le_refl a
  | cons x xs ih =>
      intro a
      calc a ≤ max a x := le_max_left a x
        _ ≤ (x :: xs).foldl max a := ih (max a x)

theorem mem_le_foldl_max : ∀ (l : List ℤ) (a x : ℤ), x ∈ l → x ≤ l.foldl max a := by
  intro l
  induction l with
  | nil => intro a x h; exact absurd h (List.not_mem_nil x)
  | cons y ys ih =>
      intro a x h
      rcases List.mem_cons.mp h with h1 | h2
      · subst h1
        calc x ≤ max a x := le_max_right a x
          _ ≤ (x :: ys).foldl max a := le_foldl_max ys (max a x)
      · exact ih (max a y) x h2

theorem foldl_max_cases : ∀ (l : List ℤ) (a : ℤ), l.foldl max a = a ∨ l.foldl max a ∈ l := by
  intro l
  induction l with
  | nil => intro a; exact Or.inl rfl
  | cons x xs ih =>
      intro a
      rcases ih (max a x) with h | h
      · rw [List.foldl_cons, h]
        rcases max_choice a x with h1 | h1
        · exact Or.inl h1
        · right
          rw [h1]
          exact List.mem_cons_self x xs
      · exact Or.inr (List.mem_cons_of_mem x h)

theorem le_maxIdFold (m : ℤ) (l : List ℤ) : m ≤ maxIdFold m l := by
  cases l with
  | nil => exact le_refl m
  | cons x xs => exact le_max_left _ _

theorem mem_succ_le_maxIdFold (m : ℤ) (l : List ℤ) (x : ℤ) (h : x ∈ l) :
    x + 1 ≤ maxIdFold m l := by
  cases l with
  | nil => exact absurd h (List.not_mem_nil x)
  | cons y ys =>
      show x + 1 ≤ max m (ys.foldl max y + 1)
      have hx : x ≤ ys.foldl max y := by
        rcases List.mem_cons.mp h with h1 | h2
        · exact h1 ▸ le_foldl_max ys y
        · exact mem_le_foldl_max ys y x h2
      calc x + 1 ≤ ys.foldl max y + 1 := by linarith
        _ ≤ max m (ys.foldl max y + 1) := le_max_right _ _

theorem maxIdFold_cases (m : ℤ) (l : List ℤ) :
    maxIdFold m l = m ∨ ∃ x ∈ l, maxIdFold m l = x + 1 := by
  cases l with
  | nil => exact Or.inl rfl
  | cons y ys =>
      show max m (ys.foldl max y + 1) = m ∨ _
      rcases max_choice m (ys.foldl max y + 1) with h | h
      · exact Or.inl h
      · right
        refine ⟨ys.foldl max y, ?_, h⟩
        rcases foldl_max_cases ys y with h1 | h1
        · rw [h1]
          exact List.mem_cons_self y ys
        · exact List.mem_cons_of_mem y h1

theorem le_foldl_maxIdFold : ∀ (lss : List (List ℤ)) (a : ℤ),
    a ≤ lss.foldl maxIdFold a := by
  intro lss
  induction lss with
  | nil => intro a; exact le_refl a
  | cons l ls ih =>
      intro a
      calc a ≤ maxIdFold a l := le_maxIdFold a l
        _ ≤ (l :: ls).foldl maxIdFold a := ih (maxIdFold a l)

theorem monotone_foldl_maxIdFold : ∀ (lss : List (List ℤ)) (a b : ℤ), a ≤ b →
    lss.foldl maxIdFold a ≤ lss.foldl maxIdFold b := by
  intro lss
  induction lss with
  | nil => intro a b h; exact h
  | cons l ls ih =>
      intro a b h
      apply ih
      cases l with
      | nil => exact h
      | cons y ys => exact max_le_max h (le_refl _)

theorem mem_succ_le_foldl_maxIdFold : ∀ (lss : List (List ℤ)) (a x : ℤ),
    x ∈ lss.flatten → x + 1 ≤ lss.foldl maxIdFold a := by
  intro lss
  induction lss with
  | nil => intro a x h; simp at h
  | cons l ls ih =>
      intro a x h
      rw [List.flatten_cons, List.mem_append] at h
      rcases h with h1 | h2
      · calc x + 1 ≤ maxIdFold a l := mem_succ_le_maxIdFold a l x h1
          _ ≤ (l :: ls).foldl maxIdFold a := le_foldl_maxIdFold ls (maxIdFold a l)
      · exact ih (maxIdFold a l) x h2

theorem foldl_maxIdFold_cases : ∀ (lss : List (List ℤ)) (a : ℤ),
    lss.foldl maxIdFold a = a ∨ ∃ x ∈ lss.flatten, lss.foldl maxIdFold a = x + 1 := by
  intro lss
  induction lss with
  | nil => intro a; exact Or.inl rfl
  | cons l ls ih =>
      intro a
      rcases ih (maxIdFold a l) with h | h
      · rw [List.foldl_cons, h]
        rcases maxIdFold_cases a l with h1 | h1
        · exact Or.inl h1
        · rcases h1 with ⟨x, hx, hx1⟩
          right
          refine ⟨x, ?_, hx1⟩
          rw [List.flatten_cons, List.mem_append]
          exact Or.inl hx
      · rcases h with ⟨x, hx, hx1⟩
        right
        refine ⟨x, ?_, by rw [List.foldl_cons]; exact hx1⟩
        rw [List.flatten_cons, List.mem_append]
        exact Or.inr hx

theorem eps_pos : 0 < eps := by
  unfold eps
  positivity

theorem interW_nonneg (g c : Box) : 0 ≤ interW g c := le_max_right _ _

theorem interH_nonneg (g c : Box) : 0 ≤ interH g c := le_max_right _ _

theorem interArea_nonneg (g c : Box) : 0 ≤ interArea g c :=
  mul_nonneg (interW_nonneg g c) (interH_nonneg g c)

theorem interW_eq_zero_left (g c : Box) (h : g.w ≤ 0) : interW g c = 0 := by
  unfold interW
  apply max_eq_right
  have h1 : min (g.x + g.w) (c.x + c.w) ≤ g.x + g.w := min_le_left _ _
  have h2 : g.x ≤ max g.x c.x := le_max_left _ _
  linarith

theorem interW_eq_zero_right (g c : Box) (h : c.w ≤ 0) : interW g c = 0 := by
  unfold interW
  apply max_eq_right
  have h1 : min (g.x + g.w) (c.x + c.w) ≤ c.x + c.w := min_le_right _ _
  have h2 : c.x ≤ max g.x c.x := le_max_right _ _
  linarith

theorem interH_eq_zero_left (g c : Box) (h : g.h ≤ 0) : interH g c = 0 := by
  unfold interH
  apply max_eq_right
  have h1 : min (g.y + g.h) (c.y + c.h) ≤ g.y + g.h := min_le_left _ _
  have h2 : g.y ≤ max g.y c.y := le_max_left _ _
  linarith

theorem interH_eq_zero_right (g c : Box) (h : c.h ≤ 0) : interH g c = 0 := by
  unfold interH
  apply max_eq_right
  have h1 : min (g.y + g.h) (c.y + c.h) ≤ c.y + c.h := min_le_right _ _
  have h2 : c.y ≤ max g.y c.y := le_max_right _ _
  linarith

theorem interW_le_left (g c : Box) (h : 0 ≤ g.w) : interW g c ≤ g.w := by
  unfold interW
  apply max_le _ h
  have h1 : min (g.x + g.w) (c.x + c.w) ≤ g.x + g.w := min_le_left _ _
  have h2 : g.x ≤ max g.x c.x := le_max_left _ _
  linarith

theorem interW_le_right (g c : Box) (h : 0 ≤ c.w) : interW g c ≤ c.w := by
  unfold interW
  apply max_le _ h
  have h1 : min (g.x + g.w) (c.x + c.w) ≤ c.x + c.w := min_le_right _ _
  have h2 : c.x ≤ max g.x c.x := le_max_right _ _
  linarith

theorem interH_le_left (g c : Box) (h : 0 ≤ g.h) : interH g c ≤ g.h := by
  unfold interH
  apply max_le _ h
  have h1 : min (g.y + g.h) (c.y + c.h) ≤ g.y + g.h := min_le_left _ _
  have h2 : g.y ≤ max g.y c.y := le_max_left _ _
  linarith

theorem interH_le_right (g c : Box) (h : 0 ≤ c.h) : interH g c ≤ c.h := by
  unfold interH
  apply max_le _ h
  have h1 : min (g.y + g.h) (c.y + c.h) ≤ c.y + c.h := min_le_right _ _
  have h2 : c.y ≤ max g.y c.y := le_max_right _ _
  linarith

theorem two_interArea_le (g c : Box) (hg : 0 < area g) (hc : 0 < area c) :
    2 * interArea g c ≤ area g + area c := by
  rcases le_or_lt g.w 0 with h | hgw
  · have hz : interArea g c = 0 := by
      unfold interArea
      rw [interW_eq_zero_left g c h, zero_mul]
    rw [hz]
    linarith
  rcases le_or_lt g.h 0 with h | hgh
  · have hz : interArea g c = 0 := by
      unfold interArea
      rw [interH_eq_zero_left g c h, mul_zero]
    rw [hz]
    linarith
  rcases le_or_lt c.w 0 with h | hcw
  · have hz : interArea g c = 0 := by
      unfold interArea
      rw [interW_eq_zero_right g c h, zero_mul]
    rw [hz]
    linarith
  rcases le_or_lt c.h 0 with h | hch
  · have hz : interArea g c = 0 := by
      unfold interArea
      rw [interH_eq_zero_right g c h, mul_zero]
    rw [hz]
    linarith
  have h1 : interArea g c ≤ area g := by
    unfold interArea area
    exact mul_le_mul (interW_le_left g c (le_of_lt hgw))
      (interH_le_left g c (le_of_lt hgh)) (interH_nonneg g c) (le_of_lt hgw)
  have h2 : interArea g c ≤ area c := by
    unfold interArea area
    exact mul_le_mul (interW_le_right g c (le_of_lt hcw))
      (interH_le_right g c (le_of_lt hch)) (interH_nonneg g c) (le_of_lt hcw)
  linarith

theorem unionFixed_pos (g c : Box) : 0 < unionFixed g c := by
  unfold unionFixed
  by_cases h : unionArea g c ≤ eps
  · rw [if_pos h]
    norm_num
  · rw [if_neg h]
    have := eps_pos
    linarith [lt_of_not_le h]

theorem iouPair_eq_zero_of_interArea (g c : Box) (h : interArea g c = 0) :
    iouPair g c = 0 := by
  unfold iouPair interFixed
  by_cases hc : area g ≤ eps ∨ area c ≤ eps ∨ unionArea g c ≤ eps
  · rw [if_pos hc]
    exact zero_div _
  · rw [if_neg hc, h]
    exact zero_div _

theorem iouPair_nonneg (g c : Box) : 0 ≤ iouPair g c := by
  unfold iouPair interFixed
  by_cases hc : area g ≤ eps ∨ area c ≤ eps ∨ unionArea g c ≤ eps
  · rw [if_pos hc, zero_div]
  · rw [if_neg hc]
    exact div_nonneg (interArea_nonneg g c) (le_of_lt (unionFixed_pos g c))

theorem iouPair_le_one (g c : Box) : iouPair g c ≤ 1 := by
  unfold iouPair interFixed
  by_cases hc : area g ≤ eps ∨ area c ≤ eps ∨ unionArea g c ≤ eps
  · rw [if_pos hc, zero_div]
    norm_num
  · rw [if_neg hc]
    push_neg at hc
    obtain ⟨h1, h2, h3⟩ := hc
    have hu : unionFixed g c = unionArea g c := by
      unfold unionFixed
      rw [if_neg (not_le.mpr h3)]
    rw [hu]
    have hpos : 0 < unionArea g c := lt_trans eps_pos h3
    rw [div_le_one hpos]
    have htwo : 2 * interArea g c ≤ area g + area c :=
      two_interArea_le g c (lt_trans eps_pos h1) (lt_trans eps_pos h2)
    unfold unionArea
    linarith

theorem iouPair_self (b : Box) (hw : 0 < b.w) (hh : 0 < b.h)
    (ha : eps < area b) : iouPair b b = 1 := by
  have hiw : interW b b = b.w := by
    unfold interW
    rw [min_self, max_self]
    have : b.x + b.w - b.x = b.w := by ring
    rw [this]
    exact max_eq_left (le_of_lt hw)
  have hih : interH b b = b.h := by
    unfold interH
    rw [min_self, max_self]
    have : b.y + b.h - b.y = b.h := by ring
    rw [this]
    exact max_eq_left (le_of_lt hh)
  have hia : interArea b b = area b := by
    unfold interArea area
    rw [hiw, hih]
  have hu : unionArea b b = area b := by
    unfold unionArea
    rw [hia]
    ring
  have hcond : ¬(area b ≤ eps ∨ area b ≤ eps ∨ unionArea b b ≤ eps) := by
    push_neg
    exact ⟨ha, ha, hu ▸ ha⟩
  unfold iouPair interFixed unionFixed
  rw [if_neg hcond, if_neg (not_le.mpr (hu ▸ ha)), hia, hu]
  exact div_self (ne_of_gt (lt_trans eps_pos ha))

theorem iouPair_disjoint (g c : Box)
    (h : (g.x + g.w ≤ c.x ∨ c.x + c.w ≤ g.x) ∨
         (g.y + g.h ≤ c.y ∨ c.y + c.h ≤ g.y)) :
    iouPair g c = 0 := by
  apply iouPair_eq_zero_of_interArea
  unfold interArea
  rcases h with (hx | hx) | (hy | hy)
  · have hiw : interW g c = 0 := by
      unfold interW
      apply max_eq_right
      have h1 : min (g.x + g.w) (c.x + c.w) ≤ g.x + g.w := min_le_left _ _
      have h2 : c.x ≤ max g.x c.x := le_max_right _ _
      linarith
    rw [hiw, zero_mul]
  · have hiw : interW g c = 0 := by
      unfold interW
      apply max_eq_right
      have h1 : min (g.x + g.w) (c.x + c.w) ≤ c.x + c.w := min_le_right _ _
      have h2 : g.x ≤ max g.x c.x := le_max_left _ _
      linarith
    rw [hiw, zero_mul]
  · have hih : interH g c = 0 := by
      unfold interH
      apply max_eq_right
      have h1 : min (g.y + g.h) (c.y + c.h) ≤ g.y + g.h := min_le_left _ _
      have h2 : c.y ≤ max g.y c.y := le_max_right _ _
      linarith
    rw [hih, mul_zero]
  · have hih : interH g c = 0 := by
      unfold interH
      apply max_eq_right
      have h1 : min (g.y + g.h) (c.y + c.h) ≤ c.y + c.h := min_le_right _ _
      have h2 : g.y ≤ max g.y c.y := le_max_left _ _
      linarith
    rw [hih, mul_zero]

theorem maxKey_eq_foldl (rows : List Row) :
    maxKey rows = (rows.map rowFrame).foldl max 0 := by
  unfold maxKey
  rw [List.foldl_map]

theorem maxKey_nonneg (rows : List Row) : 0 ≤ maxKey rows := by
  rw [maxKey_eq_foldl]
  exact le_foldl_max _ 0

theorem frame_le_maxKey (rows : List Row) (r : Row) (h : r ∈ rows) :
    rowFrame r ≤ maxKey rows := by
  rw [maxKey_eq_foldl]
  exact mem_le_foldl_max _ 0 (rowFrame r) (List.mem_map_of_mem rowFrame h)

theorem maxKey_cases (rows : List Row) :
    maxKey rows = 0 ∨ ∃ r ∈ rows, maxKey rows = rowFrame r := by
  rw [maxKey_eq_foldl]
  rcases foldl_max_cases (rows.map rowFrame) 0 with h | h
  · exact Or.inl h
  · rcases List.mem_map.mp h with ⟨r, hr, hfr⟩
    exact Or.inr ⟨r, hr, hfr.symm⟩

theorem combine_nonneg (gt tr : List Row) :
    0 ≤ combine_gt_and_tracker gt tr :=
  le_trans (maxKey_nonneg gt) (le_max_left _ _)

theorem numTimesteps_cast (gt tr : List Row) :
    (numTimesteps gt tr : ℤ) = combine_gt_and_tracker gt tr :=
  Int.toNat_of_nonneg (combine_nonneg gt tr)

theorem foldl_max_filter_pos :
    ∀ (rows : List Row) (a : ℤ), 0 ≤ a →
      (rows.filter (fun r => decide (1 ≤ rowFrame r))).foldl
          (fun m r => max m (rowFrame r)) a =
        rows.foldl (fun m r => max m (rowFrame r)) a := by
  intro rows
  induction rows with
  | nil => intro a _; rfl
  | cons r rs ih =>
      intro a ha
      rw [List.filter_cons]
      by_cases h : 1 ≤ rowFrame r
      · rw [if_pos (by simpa using h), List.foldl_cons, List.foldl_cons]
        exact ih (max a (rowFrame r)) (le_trans ha (le_max_left _ _))
      · rw [if_neg (by simpa using h), List.foldl_cons]
        have hm : max a (rowFrame r) = a := max_eq_left (by linarith [lt_of_not_le h])
        rw [hm]
        exact ih a ha

theorem maxKey_filter_pos (rows : List Row) :
    maxKey (rows.filter (fun r => decide (1 ≤ rowFrame r))) = maxKey rows :=
  foldl_max_filter_pos rows 0 (le_refl 0)

theorem bucket_filter_pos (rows : List Row) (k : ℤ) (hk : 1 ≤ k) :
    bucket (rows.filter (fun r => decide (1 ≤ rowFrame r))) k = bucket rows k := by
  unfold bucket
  rw [List.filter_filter]
  apply List.filter_congr
  intro r _
  by_cases h : rowFrame r = k
  · simp [h, hk]
  · simp [h]

theorem okSide_of_uniform {rows : List Row} {w n : ℕ} (hw : n ≤ w)
    (h : ∀ r ∈ rows, r.length = w) :
    (rows.isEmpty || (rectangular rows && decide (n ≤ rowWidth rows))) = true := by
  cases rows with
  | nil => rfl
  | cons r rs =>
      have hww : rowWidth (r :: rs) = w := h r (List.mem_cons_self r rs)
      have hrect : rectangular (r :: rs) = true := by
        unfold rectangular
        apply List.all_eq_true.mpr
        intro x hx
        rw [beq_iff_eq, h x hx, hww]
      show (false || (rectangular (r :: rs) && decide (n ≤ rowWidth (r :: rs)))) = true
      rw [hrect, hww]
      simp [hw]

theorem stepOkAt_of_uniform (gt tr : List Row) (wg wt : ℕ)
    (hwg : 6 ≤ wg) (hwt : 7 ≤ wt)
    (hg : ∀ r ∈ gt, r.length = wg) (ht : ∀ r ∈ tr, r.length = wt)
    (t : ℕ) : stepOkAt gt tr t = true := by
  unfold stepOkAt stepOkCore
  rw [Bool.and_eq_true]
  constructor
  · exact okSide_of_uniform hwg (fun r hr => hg r (List.mem_of_mem_filter hr))
  · exact okSide_of_uniform hwt (fun r hr => ht r (List.mem_of_mem_filter hr))

/-- C5 (counterexample): the claim that the IoU of every positive-area
box against itself equals 1 fails on the code.  `tinyBox` has positive
area `2 ^ (-54)`, but the degenerate-case fix-up of
`_calculate_box_ious` line 180 zeroes any intersection whose reference
area is at most the machine epsilon `2 ^ (-52)`, so the self-IoU is 0,
not 1. -/
theorem iou_self_not_one_below_eps :
    0 < area tinyBox ∧ iouPair tinyBox tinyBox ≠ 1 := by
  with_unfolding_all decide

/-- C5 (amended): every entry of the IoU matrix of `_calculate_box_ious`
lies in `[0, 1]`; the IoU of a box with positive width and height whose
area exceeds the machine epsilon against itself equals 1; and the IoU
of two boxes with disjoint x-ranges (or y-ranges) equals 0. -/
theorem iou_bounds_self_disjoint (gts cs : List Box) (g c b : Box) :
    (∀ row ∈ calculate_box_ious gts cs, ∀ v ∈ row, 0 ≤ v ∧ v ≤ 1) ∧
    (0 < b.w → 0 < b.h → eps < area b → iouPair b b = 1) ∧
    ((g.x + g.w ≤ c.x ∨ c.x + c.w ≤ g.x) ∨
      (g.y + g.h ≤ c.y ∨ c.y + c.h ≤ g.y) → iouPair g c = 0) := by
  refine ⟨?_, fun hw hh ha => iouPair_self b hw hh ha,
    fun hd => iouPair_disjoint g c hd⟩
  intro row hrow v hv
  rcases List.mem_map.mp hrow with ⟨gb, hgb, hre⟩
  subst hre
  rcases List.mem_map.mp hv with ⟨cb, hcb, hve⟩
  subst hve
  exact ⟨iouPair_nonneg gb cb, iouPair_le_one gb cb⟩

/-- Witness for the amended C5 at concrete boxes: a `10 × 10` box
matches itself with IoU 1, and two unit boxes with disjoint x-ranges
have IoU 0. -/
theorem iou_bounds_self_disjoint_witness :
    iouPair ⟨0, 0, 10, 10⟩ ⟨0, 0, 10, 10⟩ = 1 ∧
    iouPair ⟨0, 0, 1, 1⟩ ⟨5, 0, 1, 1⟩ = 0 :=
  ⟨(iou_bounds_self_disjoint [] [] ⟨0, 0, 1, 1⟩ ⟨5, 0, 1, 1⟩
      ⟨0, 0, 10, 10⟩).2.1 (by with_unfolding_all decide)
      (by with_unfolding_all decide) (by with_unfolding_all decide),
   (iou_bounds_self_disjoint [] [] ⟨0, 0, 1, 1⟩ ⟨5, 0, 1, 1⟩
      ⟨0, 0, 10, 10⟩).2.2 (Or.inl (Or.inl (by with_unfolding_all decide)))⟩

/-- C6: a reference or candidate box of non-positive area gives IoU 0
for every pair involving it; a pair of non-positive raw union has its
union replaced by 1 and evaluates to IoU 0; and the denominator of the
IoU division is always positive, so `_calculate_box_ious` never
divides by zero or by a non-positive value. -/
theorem degenerate_box_policy (g c : Box) :
    (area g ≤ 0 → iouPair g c = 0) ∧
    (area c ≤ 0 → iouPair g c = 0) ∧
    (unionArea g c ≤ 0 → unionFixed g c = 1 ∧ iouPair g c = 0) ∧
    0 < unionFixed g c := by
  have hep := eps_pos
  refine ⟨?_, ?_, ?_, unionFixed_pos g c⟩
  · intro h
    unfold iouPair interFixed
    rw [if_pos (Or.inl (le_trans h (le_of_lt hep)))]
    exact zero_div _
  · intro h
    unfold iouPair interFixed
    rw [if_pos (Or.inr (Or.inl (le_trans h (le_of_lt hep))))]
    exact zero_div _
  · intro h
    refine ⟨?_, ?_⟩
    · unfold unionFixed
      rw [if_pos (le_trans h (le_of_lt hep))]
    · unfold iouPair interFixed
      rw [if_pos (Or.inr (Or.inr (le_trans h (le_of_lt hep))))]
      exact zero_div _

/-- Witness for C6 at concrete boxes: a zero-width box has IoU 0
against a unit box, and a pair of zero-area boxes has its union
replaced by 1, with IoU 0. -/
theorem degenerate_box_policy_witness :
    iouPair ⟨0, 0, 0, 5⟩ ⟨0, 0, 1, 1⟩ = 0 ∧
    unionFixed ⟨0, 0, 0, 5⟩ ⟨0, 0, 0, 5⟩ = 1 ∧
    iouPair ⟨0, 0, 0, 5⟩ ⟨0, 0, 0, 5⟩ = 0 :=
  ⟨(degenerate_box_policy ⟨0, 0, 0, 5⟩ ⟨0, 0, 1, 1⟩).1
      (by with_unfolding_all decide),
   ((degenerate_box_policy ⟨0, 0, 0, 5⟩ ⟨0, 0, 0, 5⟩).2.2.1
      (by with_unfolding_all decide)).1,
   ((degenerate_box_policy ⟨0, 0, 0, 5⟩ ⟨0, 0, 0, 5⟩).2.2.1
      (by with_unfolding_all decide)).2⟩

/-- C1: `num_timesteps` equals the maximum frame index seen in either
source (stated for any nonnegative maximum; the data model's frames
are 1-based), and for a pair of sources with no detections at all the
pipeline succeeds with `num_timesteps = 0` and all four aggregate
counters 0. -/
theorem num_timesteps_is_max_frame (gt tr : List Row) :
    (∀ m : ℤ, m ∈ (gt ++ tr).map rowFrame →
      (∀ x ∈ (gt ++ tr).map rowFrame, x ≤ m) → 0 ≤ m →
      (numTimesteps gt tr : ℤ) = m) ∧
    (gt = [] → tr = [] →
      preprocess? gt tr = some (preprocess_data gt tr) ∧
      (preprocess_data gt tr).numTimesteps = 0 ∧
      (preprocess_data gt tr).numGtDets = 0 ∧
      (preprocess_data gt tr).numTrackerDets = 0 ∧
      (preprocess_data gt tr).numGtIds = 0 ∧
      (preprocess_data gt tr).numTrackerIds = 0) := by
  constructor
  · intro m hm hub hm0
    rw [numTimesteps_cast]
    unfold combine_gt_and_tracker
    apply le_antisymm
    · apply max_le
      · rcases maxKey_cases gt with h | ⟨r, hr, hfr⟩
        · rw [h]; exact hm0
        · rw [hfr]
          exact hub _ (List.mem_map_of_mem rowFrame (List.mem_append.mpr (Or.inl hr)))
      · rcases maxKey_cases tr with h | ⟨r, hr, hfr⟩
        · rw [h]; exact hm0
        · rw [hfr]
          exact hub _ (List.mem_map_of_mem rowFrame (List.mem_append.mpr (Or.inr hr)))
    · rcases List.mem_map.mp hm with ⟨r, hr, hfr⟩
      rcases List.mem_append.mp hr with h | h
      · rw [← hfr]
        exact le_trans (frame_le_maxKey gt r h) (le_max_left _ _)
      · rw [← hfr]
        exact le_trans (frame_le_maxKey tr r h) (le_max_right _ _)
  · intro hgt htr
    subst hgt
    subst htr
    exact ⟨rfl, rfl, rfl, rfl, rfl, rfl⟩

/-- Witness for C1: on the one-frame example pair the maximum frame is
1 and `num_timesteps` is 1; the empty pair gives `num_timesteps = 0`
and zero counters. -/
theorem num_timesteps_is_max_frame_witness :
    (numTimesteps gtEx1 trEx1 : ℤ) = 1 ∧
    (preprocess_data ([] : List Row) ([] : List Row)).numTimesteps = 0 ∧
    (preprocess_data ([] : List Row) ([] : List Row)).numGtDets = 0 :=
  ⟨(num_timesteps_is_max_frame gtEx1 trEx1).1 1
      (by with_unfolding_all decide) (by with_unfolding_all decide)
      (by with_unfolding_all decide),
   ((num_timesteps_is_max_frame [] []).2 rfl rfl).2.1,
   ((num_timesteps_is_max_frame [] []).2 rfl rfl).2.2.1⟩

/-- C10: detection rows with a non-positive frame number never affect
the output (removing them changes nothing, because the aligner only
reads file frames `1 .. num_timesteps` and the maximum-frame
accumulators start at 0), and an input containing only frame-0 rows
yields `num_timesteps = 0`. -/
theorem nonpositive_frames_ignored (gt tr : List Row) :
    preprocess? (gt.filter (fun r => decide (1 ≤ rowFrame r)))
        (tr.filter (fun r => decide (1 ≤ rowFrame r))) = preprocess? gt tr ∧
    ((∀ r ∈ gt, rowFrame r = 0) → (∀ r ∈ tr, rowFrame r = 0) →
      numTimesteps gt tr = 0) := by
  constructor
  · have hT : numTimesteps (gt.filter (fun r => decide (1 ≤ rowFrame r)))
        (tr.filter (fun r => decide (1 ≤ rowFrame r))) = numTimesteps gt tr := by
      unfold numTimesteps combine_gt_and_tracker
      rw [maxKey_filter_pos, maxKey_filter_pos]
    have hbg : ∀ t : ℕ,
        bucket (gt.filter (fun r => decide (1 ≤ rowFrame r))) ((t : ℤ) + 1) =
          bucket gt ((t : ℤ) + 1) :=
      fun t => bucket_filter_pos gt _ (by omega)
    have hbt : ∀ t : ℕ,
        bucket (tr.filter (fun r => decide (1 ≤ rowFrame r))) ((t : ℤ) + 1) =
          bucket tr ((t : ℤ) + 1) :=
      fun t => bucket_filter_pos tr _ (by omega)
    have hstep : stepAt (gt.filter (fun r => decide (1 ≤ rowFrame r)))
        (tr.filter (fun r => decide (1 ≤ rowFrame r))) = stepAt gt tr :=
      funext fun t => by unfold stepAt; rw [hbg t, hbt t]
    have hok : stepOkAt (gt.filter (fun r => decide (1 ≤ rowFrame r)))
        (tr.filter (fun r => decide (1 ≤ rowFrame r))) = stepOkAt gt tr :=
      funext fun t => by unfold stepOkAt; rw [hbg t, hbt t]
    have hpd : preprocess_data (gt.filter (fun r => decide (1 ≤ rowFrame r)))
        (tr.filter (fun r => decide (1 ≤ rowFrame r))) = preprocess_data gt tr := by
      unfold preprocess_data stepsOf
      rw [hT, hstep]
    unfold preprocess?
    rw [hT, hok, hpd]
  · intro hg ht
    unfold numTimesteps combine_gt_and_tracker
    have h1 : maxKey gt = 0 := by
      rcases maxKey_cases gt with h | ⟨r, hr, hfr⟩
      · exact h
      · rw [hfr]; exact hg r hr
    have h2 : maxKey tr = 0 := by
      rcases maxKey_cases tr with h | ⟨r, hr, hfr⟩
      · exact h
      · rw [hfr]; exact ht r hr
    rw [h1, h2]
    rfl

/-- Witness for C10: dropping the frame-0 row of a file that also has
a frame-1 row leaves the pipeline output unchanged, and a file of only
frame-0 rows has zero timesteps. -/
theorem nonpositive_frames_ignored_witness :
    preprocess? ([[0, 9, 1, 1, 1, 1, 1], [1, 0, 0, 0, 10, 10, 1]].filter
        (fun r => decide (1 ≤ rowFrame r))) (trEx1.filter (fun r => decide (1 ≤ rowFrame r))) =
      preprocess? [[0, 9, 1, 1, 1, 1, 1], [1, 0, 0, 0, 10, 10, 1]] trEx1 ∧
    numTimesteps [[0, 9, 1, 1, 1, 1, 1]] ([] : List Row) = 0 :=
  ⟨(nonpositive_frames_ignored [[0, 9, 1, 1, 1, 1, 1], [1, 0, 0, 0, 10, 10, 1]] trEx1).1,
   (nonpositive_frames_ignored [[0, 9, 1, 1, 1, 1, 1]] []).2
      (by with_unfolding_all decide) (by with_unfolding_all decide)⟩

/-- C8 (counterexample): the claim that a tracker input carrying
exactly the 6 required fields is accepted fails on the code.  For the
well-formed ground truth `gtEx1` and the 6-field tracker `trEx6`,
the pipeline fails: `_preprocess_data` line 98 reads column 6 of the
tracker array (`tracker_time_data[:, 6]`, the confidence column)
unconditionally, which raises on a 6-column array. -/
theorem six_field_tracker_rejected : preprocess? gtEx1 trEx6 = none := by
  with_unfolding_all decide

/-- C8 (amended): a tracker input whose rows carry at least 7 fields
(the 6 required ones plus the confidence column, which is read but
whose value is never used) is accepted for every frame where it has
rows: preprocessing succeeds and produces the aligned structure.
Rows with exactly 6 fields fail at the confidence read. -/
theorem seven_field_tracker_accepted (gt tr : List Row) (wg wt : ℕ)
    (hwg : 6 ≤ wg) (hwt : 7 ≤ wt)
    (hg : ∀ r ∈ gt, r.length = wg) (ht : ∀ r ∈ tr, r.length = wt) :
    preprocess? gt tr = some (preprocess_data gt tr) := by
  unfold preprocess?
  rw [if_pos]
  apply List.all_eq_true.mpr
  intro t _
  exact stepOkAt_of_uniform gt tr wg wt hwg hwt hg ht t

/-- Witness for the amended C8: the 7-field example pair is accepted. -/
theorem seven_field_tracker_accepted_witness :
    preprocess? gtEx1 trEx1 = some (preprocess_data gtEx1 trEx1) :=
  seven_field_tracker_accepted gtEx1 trEx1 7 7
    (by with_unfolding_all decide) (by with_unfolding_all decide)
    (by with_unfolding_all decide) (by with_unfolding_all decide)

/-- C7: in the produced structure, `num_gt_ids` is one plus the
maximum ground-truth id observed across all timesteps and 0 when no
ground-truth id exists anywhere, and symmetrically for
`num_tracker_ids`; stated under the data model's assumption that ids
are nonnegative (the accumulator of `_preprocess_data` lines 130-137
starts at 0, so a negative maximum would be clamped). -/
theorem num_ids_one_plus_max (gt tr : List Row) (d : PreprocessedData)
    (h : preprocess? gt tr = some d)
    (hg : ∀ i ∈ d.gtIds.flatten, 0 ≤ i)
    (ht : ∀ i ∈ d.trackerIds.flatten, 0 ≤ i) :
    ((d.gtIds.flatten = [] → d.numGtIds = 0) ∧
     (∀ m, m ∈ d.gtIds.flatten → (∀ x ∈ d.gtIds.flatten, x ≤ m) →
       d.numGtIds = m + 1)) ∧
    ((d.trackerIds.flatten = [] → d.numTrackerIds = 0) ∧
     (∀ m, m ∈ d.trackerIds.flatten → (∀ x ∈ d.trackerIds.flatten, x ≤ m) →
       d.numTrackerIds = m + 1)) := by
  have hd := preprocess_eq_of_some h
  subst hd
  have key : ∀ (lss : List (List ℤ)), (∀ i ∈ lss.flatten, 0 ≤ i) →
      ((lss.flatten = [] → lss.foldl maxIdFold 0 = 0) ∧
       (∀ m, m ∈ lss.flatten → (∀ x ∈ lss.flatten, x ≤ m) →
         lss.foldl maxIdFold 0 = m + 1)) := by
    intro lss hnn
    constructor
    · intro hemp
      rcases foldl_maxIdFold_cases lss 0 with h0 | ⟨x, hx, _⟩
      · exact h0
      · rw [hemp] at hx
        exact absurd hx (List.not_mem_nil x)
    · intro m hm hub
      have h1 : m + 1 ≤ lss.foldl maxIdFold 0 :=
        mem_succ_le_foldl_maxIdFold lss 0 m hm
      rcases foldl_maxIdFold_cases lss 0 with h0 | ⟨x, hx, hx1⟩
      · rw [h0] at h1
        have := hnn m hm
        omega
      · have hxm : x ≤ m := hub x hx
        rw [hx1] at h1
        omega
  have hgt : (preprocess_data gt tr).numGtIds =
      (preprocess_data gt tr).gtIds.foldl maxIdFold 0 := by
    show (stepsOf gt tr).foldl (fun m s => maxIdFold m s.gtIds) 0 =
      ((stepsOf gt tr).map StepData.gtIds).foldl maxIdFold 0
    rw [List.foldl_map]
  have htr : (preprocess_data gt tr).numTrackerIds =
      (preprocess_data gt tr).trackerIds.foldl maxIdFold 0 := by
    show (stepsOf gt tr).foldl (fun m s => maxIdFold m s.trackerIds) 0 =
      ((stepsOf gt tr).map StepData.trackerIds).foldl maxIdFold 0
    rw [List.foldl_map]
  have kg := key (preprocess_data gt tr).gtIds hg
  have kt := key (preprocess_data gt tr).trackerIds ht
  constructor
  · exact ⟨fun he => by rw [hgt]; exact kg.1 he,
      fun m hm hub => by rw [hgt]; exact kg.2 m hm hub⟩
  · exact ⟨fun he => by rw [htr]; exact kt.1 he,
      fun m hm hub => by rw [htr]; exact kt.2 m hm hub⟩

/-- Witness for C7: on the example pair the only ground-truth id is 0
so `num_gt_ids = 0 + 1`, and the only tracker id is 5 so
`num_tracker_ids = 5 + 1`. -/
theorem num_ids_one_plus_max_witness :
    dEx1.numGtIds = 0 + 1 ∧ dEx1.numTrackerIds = 5 + 1 :=
  ⟨((num_ids_one_plus_max gtEx1 trEx1 dEx1 (by with_unfolding_all decide)
      (by with_unfolding_all decide) (by with_unfolding_all decide)).1).2 0
      (by with_unfolding_all decide) (by with_unfolding_all decide),
   ((num_ids_one_plus_max gtEx1 trEx1 dEx1 (by with_unfolding_all decide)
      (by with_unfolding_all decide) (by with_unfolding_all decide)).2).2 5
      (by with_unfolding_all decide) (by with_unfolding_all decide)⟩

/-- C9: for every produced structure and timestep in range, the
per-timestep arrays are aligned: the ground-truth id and box sequences
and the similarity matrix have one common row count, and the tracker
id and box sequences share their length with every similarity row. -/
theorem per_timestep_alignment (gt tr : List Row) (d : PreprocessedData)
    (h : preprocess? gt tr = some d) (t : ℕ) (ht : t < d.numTimesteps) :
    (d.gtIds.getD t []).length = (d.gtDets.getD t []).length ∧
    (d.gtIds.getD t []).length = (d.similarityScores.getD t []).length ∧
    (d.trackerIds.getD t []).length = (d.trackerDets.getD t []).length ∧
    (∀ row ∈ d.similarityScores.getD t [],
      row.length = (d.trackerIds.getD t []).length) := by
  have hd := preprocess_eq_of_some h
  subst hd
  have ht' : t < numTimesteps gt tr := ht
  rw [preprocess_gtIds_getD, preprocess_gtDets_getD, preprocess_trackerIds_getD,
      preprocess_trackerDets_getD, preprocess_sim_getD]
  simp only [if_pos ht']
  unfold stepAt
  rw [stepCore_gtIds, stepCore_gtDets, stepCore_trackerIds,
      stepCore_trackerDets, stepCore_sim]
  refine ⟨by rw [List.length_map, List.length_map],
    by rw [List.length_map, List.length_map],
    by rw [List.length_map, List.length_map], ?_⟩
  intro row hrow
  rcases List.mem_map.mp hrow with ⟨gr, hgr, hre⟩
  subst hre
  by_cases hc : 0 < (bucket gt ((t : ℤ) + 1)).length ∧
      0 < (bucket tr ((t : ℤ) + 1)).length
  · rw [if_pos hc, List.length_map, List.length_map]
  · rw [if_neg hc, List.length_replicate, List.length_map]

/-- Witness for C9 at the example pair, timestep 0: one ground-truth
row, one tracker row, a `1 × 1` similarity matrix. -/
theorem per_timestep_alignment_witness :
    (dEx1.gtIds.getD 0 []).length = (dEx1.gtDets.getD 0 []).length ∧
    (dEx1.gtIds.getD 0 []).length = (dEx1.similarityScores.getD 0 []).length ∧
    (dEx1.trackerIds.getD 0 []).length = (dEx1.trackerDets.getD 0 []).length ∧
    (∀ row ∈ dEx1.similarityScores.getD 0 [],
      row.length = (dEx1.trackerIds.getD 0 []).length) :=
  per_timestep_alignment gtEx1 trEx1 dEx1 (by with_unfolding_all decide) 0
    (by with_unfolding_all decide)

/-- C2: at every timestep the ground-truth rows whose validity flag
(column 6, present when the bucket has at least 7 columns) equals 0
are removed from the output ids and boxes; when the similarity matrix
has at least one row the same row mask is applied to it; tracker-side
arrays are never filtered; and (for buckets with pairwise-distinct
ids, as the data model prescribes) an invalid-flagged id never appears
in the output, regardless of its overlap with any tracker box. -/
theorem gt_validity_filtering (gt tr : List Row) (d : PreprocessedData)
    (h : preprocess? gt tr = some d) (t : ℕ) (ht : t < d.numTimesteps) :
    d.gtIds.getD t [] =
      ((bucket gt ((t : ℤ) + 1)).filter (keepPred (bucket gt ((t : ℤ) + 1)))).map idOf ∧
    d.gtDets.getD t [] =
      ((bucket gt ((t : ℤ) + 1)).filter (keepPred (bucket gt ((t : ℤ) + 1)))).map boxOf ∧
    (0 < (matchSim (bucket gt ((t : ℤ) + 1)) (bucket tr ((t : ℤ) + 1))).length →
      d.similarityScores.getD t [] =
        maskFilter (keepMaskOf (bucket gt ((t : ℤ) + 1)))
          (matchSim (bucket gt ((t : ℤ) + 1)) (bucket tr ((t : ℤ) + 1)))) ∧
    d.trackerIds.getD t [] = (bucket tr ((t : ℤ) + 1)).map idOf ∧
    d.trackerDets.getD t [] = (bucket tr ((t : ℤ) + 1)).map boxOf ∧
    (∀ r ∈ bucket gt ((t : ℤ) + 1),
      keepPred (bucket gt ((t : ℤ) + 1)) r = false →
      (bucket gt ((t : ℤ) + 1)).Pairwise (fun a b => idOf a ≠ idOf b) →
      idOf r ∉ d.gtIds.getD t []) := by
  have hd := preprocess_eq_of_some h
  subst hd
  have ht' : t < numTimesteps gt tr := ht
  rw [preprocess_gtIds_getD, preprocess_gtDets_getD, preprocess_trackerIds_getD,
      preprocess_trackerDets_getD, preprocess_sim_getD]
  simp only [if_pos ht']
  unfold stepAt
  refine ⟨stepCore_gtIds _ _, stepCore_gtDets _ _,
    fun hlen => stepCore_sim_masked _ _ hlen, rfl, rfl, ?_⟩
  intro r hr hkf hpw hmem
  rw [stepCore_gtIds] at hmem
  rcases List.mem_map.mp hmem with ⟨q, hq, hqe⟩
  rcases List.mem_filter.mp hq with ⟨hqb, hqk⟩
  have hne : r ≠ q := by
    intro he
    rw [← he] at hqk
    rw [hkf] at hqk
    exact Bool.noConfusion hqk
  have hsym : Symmetric (fun a b : Row => idOf a ≠ idOf b) :=
    fun a b hab => hab.symm
  exact (hpw.forall hsym hr hqb hne) hqe.symm

/-- Witness for C2: in `gtEx2` the frame-1 row with id 3 carries
validity flag 0 and its id does not appear in the output. -/
theorem gt_validity_filtering_witness :
    idOf ([1, 3, 20, 20, 5, 5, 0] : Row) ∉ dEx2.gtIds.getD 0 [] :=
  (gt_validity_filtering gtEx2 trEx1 dEx2 (by with_unfolding_all decide) 0
      (by with_unfolding_all decide)).2.2.2.2.2
    [1, 3, 20, 20, 5, 5, 0] (by with_unfolding_all decide)
    (by with_unfolding_all decide) (by with_unfolding_all decide)

/-- C3: the optimal-assignment match computation of `_preprocess_data`
lines 107-110 has no effect on the output: the pipeline with the
assignment solver included (any solver) produces exactly the output of
the variant that skips the assignment step, and at every timestep
where both sides are nonempty the similarity matrix the match step
works on is the full pairwise IoU matrix of the pre-filter ground-truth
boxes against the tracker boxes (the output carries it with only the
ground-truth validity row mask of step 5 applied). -/
theorem match_computation_no_effect :
    (∀ lsa gt tr, preprocessWith? lsa gt tr = preprocess? gt tr) ∧
    (∀ gt tr d, preprocess? gt tr = some d → ∀ t : ℕ, t < d.numTimesteps →
      bucket gt ((t : ℤ) + 1) ≠ [] → bucket tr ((t : ℤ) + 1) ≠ [] →
      d.similarityScores.getD t [] =
        maskFilter (keepMaskOf (bucket gt ((t : ℤ) + 1)))
          (calculate_box_ious ((bucket gt ((t : ℤ) + 1)).map boxOf)
            ((bucket tr ((t : ℤ) + 1)).map boxOf))) := by
  constructor
  · intro lsa gt tr
    rfl
  · intro gt tr d h t ht hg htr
    have hd := preprocess_eq_of_some h
    subst hd
    have ht' : t < numTimesteps gt tr := ht
    rw [preprocess_sim_getD]
    simp only [if_pos ht']
    unfold stepAt
    have hlen : 0 < (matchSim (bucket gt ((t : ℤ) + 1))
        (bucket tr ((t : ℤ) + 1))).length := by
      rw [matchSim_length]
      exact List.length_pos.mpr hg
    rw [stepCore_sim_masked _ _ hlen]
    unfold matchSim
    rw [if_pos ⟨List.length_pos.mpr hg, List.length_pos.mpr htr⟩]

/-- Witness for C3: a concrete assignment solver makes no difference
on the example pair, whose output similarity is the masked full IoU
matrix. -/
theorem match_computation_no_effect_witness :
    preprocessWith? (fun _ => [(0, 0)]) gtEx1 trEx1 = preprocess? gtEx1 trEx1 ∧
    dEx1.similarityScores.getD 0 [] =
      maskFilter (keepMaskOf (bucket gtEx1 (((0 : ℕ) : ℤ) + 1)))
        (calculate_box_ious ((bucket gtEx1 (((0 : ℕ) : ℤ) + 1)).map boxOf)
          ((bucket trEx1 (((0 : ℕ) : ℤ) + 1)).map boxOf)) :=
  ⟨match_computation_no_effect.1 (fun _ => [(0, 0)]) gtEx1 trEx1,
   match_computation_no_effect.2 gtEx1 trEx1 dEx1 (by with_unfolding_all decide)
     0 (by with_unfolding_all decide) (by with_unfolding_all decide)
     (by with_unfolding_all decide)⟩

/-- C4: a frame absent from one or both sources never causes a
failure: if the ground-truth source has no rows for file frame `t+1`,
the output ground-truth ids and boxes at timestep `t` are empty and
the similarity matrix is the zero matrix of shape (0, M); symmetrically
a frame absent from the tracker source yields empty tracker arrays and
the zero matrix of shape (N, 0); the matrix is a total value of the
corresponding (possibly zero) shape, never an absent one. -/
theorem missing_frames_tolerated (gt tr : List Row) (d : PreprocessedData)
    (h : preprocess? gt tr = some d) (t : ℕ) (ht : t < d.numTimesteps) :
    (bucket gt ((t : ℤ) + 1) = [] →
      d.gtIds.getD t [] = [] ∧ d.gtDets.getD t [] = [] ∧
      d.similarityScores.getD t [] =
        List.replicate (d.gtIds.getD t []).length
          (List.replicate (d.trackerIds.getD t []).length 0)) ∧
    (bucket tr ((t : ℤ) + 1) = [] →
      d.trackerIds.getD t [] = [] ∧ d.trackerDets.getD t [] = [] ∧
      d.similarityScores.getD t [] =
        List.replicate (d.gtIds.getD t []).length
          (List.replicate (d.trackerIds.getD t []).length 0)) := by
  have hd := preprocess_eq_of_some h
  subst hd
  have ht' : t < numTimesteps gt tr := ht
  rw [preprocess_gtIds_getD, preprocess_gtDets_getD, preprocess_trackerIds_getD,
      preprocess_trackerDets_getD, preprocess_sim_getD]
  simp only [if_pos ht']
  unfold stepAt
  constructor
  · intro hg
    rw [hg, stepCore_gtIds, stepCore_gtDets, stepCore_sim]
    exact ⟨rfl, rfl, rfl⟩
  · intro htr
    rw [htr, stepCore_sim, stepCore_gtIds, stepCore_trackerIds]
    refine ⟨rfl, rfl, ?_⟩
    simp only [List.length_nil, List.map_nil, Nat.lt_irrefl, and_false, if_false,
      List.replicate_zero, List.map_const', List.length_map]

/-- Witness for C4 at timestep 1 of the pair `gtEx1`, `trEx2`: frame 2
has tracker rows but no ground truth, so the ground-truth arrays are
empty and the similarity matrix has zero rows. -/
theorem missing_frames_tolerated_witness :
    dEx3.gtIds.getD 1 [] = [] ∧ dEx3.gtDets.getD 1 [] = [] ∧
    dEx3.similarityScores.getD 1 [] =
      List.replicate (dEx3.gtIds.getD 1 []).length
        (List.replicate (dEx3.trackerIds.getD 1 []).length 0) :=
  (missing_frames_tolerated gtEx1 trEx2 dEx3 (by with_unfolding_all decide) 1
    (by with_unfolding_all decide)).1 (by with_unfolding_all decide)
